import Mathlib

/-!
Shallow embedding of `src/CSD2161_A4/Scripts/NetworkGameState.cpp`: a
fixed-capacity networked game-state store (objects with transforms) and a
fixed-capacity leaderboard with binary save/load and a top-N query.

Modelling conventions:
- `uint32_t` values are `Nat`; the counts involved never reach `2^32` in any
  reachable state, and where a claim needs the 32-bit bound it appears as an
  explicit hypothesis (`< 4294967296`).
- `AEVec2` holds two `float` components. The store only copies these values
  and never computes with them, so each component is modelled by its bit
  pattern as an `Int`; copy-in/copy-out semantics are unaffected.
- Fixed-size `char` buffers are `List Nat` holding the raw bytes of the whole
  buffer (terminator and trailing bytes included), so that byte-for-byte
  state equality and the binary persistence format are expressible.
- The compile-time capacities (`MAX_NETWORK_OBJECTS`, `MAX_LEADERBOARD_SCORES`,
  `MAX_NAME_LENGTH`, `TIME_FORMAT`) live in the header, which is not part of
  the excerpt; every operation takes them as explicit parameters, so all
  theorems hold for every choice of the constants.
- The two global stores are passed and returned explicitly; a `bool` return
  plus out-parameters becomes `Bool × state` or an `Option` of the outputs.
-/

/-- Bit patterns of the two float components of an `AEVec2`. -/
structure AEVec2 where
  x : Int
  y : Int
deriving DecidableEq

/-- One networked entity: identifier plus transform (position/velocity/scale). -/
structure NetworkObject where
  identifier : Nat
  position : AEVec2
  velocity : AEVec2
  scale : AEVec2
deriving DecidableEq

/-- The linear scan of `SetNetworkObject` over the live objects
`objects[0..objectCount)`: update the first entry whose identifier matches,
report `none` when no entry matches. -/
def setObjectScan (identifier : Nat) (position velocity scale : AEVec2) :
    List NetworkObject → Option (List NetworkObject)
  | [] => none
  | o :: rest =>
      if o.identifier = identifier then
        some ({ o with position := position, velocity := velocity, scale := scale } :: rest)
      else
        match setObjectScan identifier position velocity scale rest with
        | some rest' => some (o :: rest')
        | none => none

/-- Embedding of `SetNetworkObject` (NetworkGameState.cpp lines 27-62).
The live slice `objects[0..objectCount)` is the list; `objectCount` is its
length. Scan-for-update first; else append below capacity; else fail. -/
def SetNetworkObject (maxObjects identifier : Nat) (position velocity scale : AEVec2)
    (objects : List NetworkObject) : Bool × List NetworkObject :=
  match setObjectScan identifier position velocity scale objects with
  | some objects' => (true, objects')
  | none =>
      if objects.length < maxObjects then
        (true, objects ++
          [{ identifier := identifier, position := position,
             velocity := velocity, scale := scale }])
      else
        (false, objects)

/-- Embedding of `GetNetworkObject` (NetworkGameState.cpp lines 64-86): scan
the live objects, copy out the first matching transform; `none` models the
`false` return with the out-parameters untouched. -/
def GetNetworkObject (identifier : Nat) :
    List NetworkObject → Option (AEVec2 × AEVec2 × AEVec2)
  | [] => none
  | o :: rest =>
      if o.identifier = identifier then some (o.position, o.velocity, o.scale)
      else GetNetworkObject identifier rest

/-- One leaderboard entry. `name` and `timestamp` are the full fixed-size
`char` buffers (terminator and trailing bytes included). -/
structure NetworkScore where
  identifier : Nat
  name : List Nat
  score : Nat
  timestamp : List Nat
deriving DecidableEq

instance : Inhabited NetworkScore :=
  ⟨{ identifier := 0, name := [], score := 0, timestamp := [] }⟩

/-- The leaderboard aggregate: the count and the FULL backing array
`scores[0..MAX_LEADERBOARD_SCORES)`, unused slots included, because the
binary persistence writes the whole aggregate. -/
structure NetworkLeaderboard where
  scoreCount : Nat
  scores : List NetworkScore
deriving DecidableEq

/-- Modelled from the spec: the header declaring the `char` buffer sizes is
not part of the excerpt. Per the spec the name/timestamp fields are
fixed-length text of at most `cap` characters, copied with truncation and
always null-terminated, so the buffer holds `cap` characters plus a
terminator. `strncpyS cap old src` is the effect of
`strncpy_s(dest, src, cap)` on a buffer previously holding `old`: the first
`min |src| cap` characters of `src`, a terminating `0`, and the previous
bytes beyond the terminator (`strncpy_s` does not zero-fill the tail). -/
def strncpyS (cap : Nat) (old src : List Nat) : List Nat :=
  src.take cap ++ 0 :: old.drop ((src.take cap).length + 1)

/-- Comparator underlying the leaderboard order: descending by score. The
source sorts with `lhs.score > rhs.score`; the sorted result satisfies the
reflexive closure `scoreGE`. -/
abbrev scoreGE (a b : NetworkScore) : Prop := b.score ≤ a.score

instance : IsTotal NetworkScore scoreGE :=
  ⟨fun a b => Nat.le_total b.score a.score⟩

instance : IsTrans NetworkScore scoreGE :=
  ⟨fun _ _ _ hab hbc => Nat.le_trans hbc hab⟩

/-- Embedding of the `std::sort` call on the live slice, descending by
score. `std::sort` is not stable, so the order among equal scores is
unspecified in the source; insertion sort realises one admissible outcome. -/
def sortScores (l : List NetworkScore) : List NetworkScore :=
  List.insertionSort scoreGE l

/-- Sortedness of the live slice: non-increasing by score. -/
abbrev SortedDesc (l : List NetworkScore) : Prop := List.Sorted scoreGE l

/-- Sorting the live slice `scores[0..n)` of the backing array in place:
`std::sort(leaderboard.scores, leaderboard.scores + n, ...)` touches the
first `n` slots and leaves the tail of the array alone. -/
def sortLive (arr : List NetworkScore) (n : Nat) : List NetworkScore :=
  sortScores (arr.take n) ++ arr.drop n

/-- The fields written into a leaderboard slot by `AddScoreToLeaderboard`:
identifier and score assigned, name and timestamp copied by `strncpy_s`
over the slot's previous buffer contents `old`. -/
def newEntry (nameCap timeCap identifier score : Nat)
    (name timestamp : List Nat) (old : NetworkScore) : NetworkScore :=
  { identifier := identifier
    name := strncpyS nameCap old.name name
    score := score
    timestamp := strncpyS timeCap old.timestamp timestamp }

/-- Embedding of `AddScoreToLeaderboard` (NetworkGameState.cpp lines
136-186). Below capacity: write the new entry into `scores[scoreCount]`,
increment the count, sort the live slice. At capacity: compare against
`scores[MAX_LEADERBOARD_SCORES - 1]`; on a strictly greater score overwrite
that slot and sort the live slice, otherwise reject. -/
def AddScoreToLeaderboard (maxScores nameCap timeCap identifier : Nat)
    (name : List Nat) (score : Nat) (timestamp : List Nat)
    (lb : NetworkLeaderboard) : Bool × NetworkLeaderboard :=
  if lb.scoreCount < maxScores then
    let entry := newEntry nameCap timeCap identifier score name timestamp
      (lb.scores.getD lb.scoreCount default)
    (true, { scoreCount := lb.scoreCount + 1,
             scores := sortLive (lb.scores.set lb.scoreCount entry) (lb.scoreCount + 1) })
  else
    if (lb.scores.getD (maxScores - 1) default).score < score then
      let entry := newEntry nameCap timeCap identifier score name timestamp
        (lb.scores.getD (maxScores - 1) default)
      (true, { scoreCount := lb.scoreCount,
               scores := sortLive (lb.scores.set (maxScores - 1) entry) lb.scoreCount })
    else
      (false, lb)

/-- Decimal rendering of a number, as the byte values of its digits
(`operator<<` on an unsigned integer). -/
def natDigits (n : Nat) : List Nat := (Nat.repr n).data.map Char.toNat

/-- Reading a C string out of a fixed-size buffer: the bytes before the
first terminator (`operator<<` on a `char` array). -/
def cString (buf : List Nat) : List Nat := buf.takeWhile (fun b => b != 0)

/-- Embedding of the `ostringstream` format in `GetTopPlayersFromLeaderboard`:
the bytes of `<rank>) <name>: <score> [<timestamp>]`. `41 32 58 91 93` are
the byte values of the punctuation characters. -/
def formatEntry (rank : Nat) (e : NetworkScore) : List Nat :=
  natDigits rank ++ [41, 32] ++ cString e.name ++ [58, 32] ++
    natDigits e.score ++ [32, 91] ++ cString e.timestamp ++ [93]

/-- The `for (x = 0; x < count; ++x)` loop of `GetTopPlayersFromLeaderboard`,
pushing one formatted line per iteration. -/
def topLoop (lb : NetworkLeaderboard) (count x : Nat) : List (List Nat) :=
  if x < count then
    formatEntry (x + 1) (lb.scores.getD x default) :: topLoop lb count (x + 1)
  else
    []
termination_by count - x

/-- Embedding of `GetTopPlayersFromLeaderboard` (NetworkGameState.cpp lines
211-235): `count` is the ternary minimum from the source; each output string
is a byte list. The function reads the leaderboard and builds a fresh
vector, mutating nothing. -/
def GetTopPlayersFromLeaderboard (playerCount : Nat) (lb : NetworkLeaderboard) :
    List (List Nat) :=
  let count := if playerCount < lb.scoreCount then playerCount else lb.scoreCount
  topLoop lb count 0

/-- Little-endian bytes of a 32-bit value, as stored in the aggregate's
memory image. -/
def encodeU32 (n : Nat) : List Nat :=
  [n % 256, n / 256 % 256, n / 65536 % 256, n / 16777216 % 256]

/-- Reassembling a 32-bit value from its little-endian bytes. -/
def decodeU32 (b : List Nat) : Nat :=
  b.getD 0 0 + 256 * b.getD 1 0 + 65536 * b.getD 2 0 + 16777216 * b.getD 3 0

/-- Modelled from the spec: the struct layout lives in the missing header;
per the spec the persisted record has fixed field widths in field order with
the buffers at `MAX_NAME_LENGTH`/`TIME_FORMAT` capacity plus terminator, so
one entry occupies `4 + (nameCap + 1) + 4 + (timeCap + 1)` bytes. -/
def entrySize (nameCap timeCap : Nat) : Nat :=
  4 + (nameCap + 1) + 4 + (timeCap + 1)

/-- Memory image of one `NetworkScore`: identifier bytes, name buffer,
score bytes, timestamp buffer. -/
def encodeEntry (e : NetworkScore) : List Nat :=
  encodeU32 e.identifier ++ e.name ++ encodeU32 e.score ++ e.timestamp

/-- Reading one `NetworkScore` back out of `entrySize` bytes. -/
def decodeEntry (nameCap timeCap : Nat) (b : List Nat) : NetworkScore :=
  { identifier := decodeU32 (b.take 4)
    name := (b.drop 4).take (nameCap + 1)
    score := decodeU32 ((b.drop (4 + (nameCap + 1))).take 4)
    timestamp := (b.drop (4 + (nameCap + 1) + 4)).take (timeCap + 1) }

/-- Memory image of the whole `NetworkLeaderboard` aggregate: the count
followed by the full backing array, unused slots included — exactly what
`file.write(reinterpret_cast<char const*>(&leaderboard), sizeof(NetworkLeaderboard))`
emits. -/
def encodeLeaderboard (lb : NetworkLeaderboard) : List Nat :=
  encodeU32 lb.scoreCount ++ (lb.scores.map encodeEntry).flatten

/-- Value of `sizeof(NetworkLeaderboard)`: count plus `maxScores` entries. -/
def sizeofLeaderboard (maxScores nameCap timeCap : Nat) : Nat :=
  4 + maxScores * entrySize nameCap timeCap

/-- Reinterpreting `sizeofLeaderboard` bytes as a `NetworkLeaderboard`. -/
def decodeLeaderboard (maxScores nameCap timeCap : Nat) (b : List Nat) :
    NetworkLeaderboard :=
  { scoreCount := decodeU32 (b.take 4)
    scores := (List.range maxScores).map fun i =>
      decodeEntry nameCap timeCap
        ((b.drop (4 + i * entrySize nameCap timeCap)).take (entrySize nameCap timeCap)) }

/-- Embedding of `SaveLeaderboard` (NetworkGameState.cpp lines 188-197): on
a successful open the whole aggregate is written as one binary blob; the
result is the file's new contents. On open failure nothing is written. -/
def SaveLeaderboard (lb : NetworkLeaderboard) : List Nat :=
  encodeLeaderboard lb

/-- Embedding of `LoadLeaderboard` (NetworkGameState.cpp lines 199-209).
`file = none` models open failure (`if (file)` skips the read). Otherwise
`file.read` stores into the aggregate's memory however many of the requested
`sizeof(NetworkLeaderboard)` bytes the file yields — a short file overwrites
only the leading bytes, the remainder of the memory image keeps its previous
contents — and the aggregate is the reinterpretation of that memory. -/
def LoadLeaderboard (maxScores nameCap timeCap : Nat) (file : Option (List Nat))
    (lb : NetworkLeaderboard) : NetworkLeaderboard :=
  match file with
  | none => lb
  | some bytes =>
      let got := bytes.take (sizeofLeaderboard maxScores nameCap timeCap)
      decodeLeaderboard maxScores nameCap timeCap
        (got ++ (encodeLeaderboard lb).drop got.length)

/-- Well-formed entry for the given capacities: 32-bit numeric fields and
buffers of the exact fixed sizes (the shape every in-memory entry has in the
C program). -/
def WFScore (nameCap timeCap : Nat) (e : NetworkScore) : Prop :=
  e.identifier < 4294967296 ∧ e.score < 4294967296 ∧
    e.name.length = nameCap + 1 ∧ e.timestamp.length = timeCap + 1

/-- Well-formed leaderboard aggregate: 32-bit count, backing array of
exactly `maxScores` well-formed entries. -/
def WFLeaderboard (maxScores nameCap timeCap : Nat) (lb : NetworkLeaderboard) : Prop :=
  lb.scoreCount < 4294967296 ∧ lb.scores.length = maxScores ∧
    ∀ e ∈ lb.scores, WFScore nameCap timeCap e

instance (nameCap timeCap : Nat) (e : NetworkScore) :
    Decidable (WFScore nameCap timeCap e) := by
  unfold WFScore
  infer_instance

instance (maxScores nameCap timeCap : Nat) (lb : NetworkLeaderboard) :
    Decidable (WFLeaderboard maxScores nameCap timeCap lb) := by
  unfold WFLeaderboard
  infer_instance

/-! Helper lemmas about the object-store scan. -/

theorem setObjectScan_match (identifier : Nat) (p v s : AEVec2) :
    ∀ (l1 : List NetworkObject) (o : NetworkObject) (l2 : List NetworkObject),
      (∀ o' ∈ l1, o'.identifier ≠ identifier) → o.identifier = identifier →
      setObjectScan identifier p v s (l1 ++ o :: l2) =
        some (l1 ++ { o with position := p, velocity := v, scale := s } :: l2)
  | [], o, l2, _, ho => by simp [setObjectScan, ho]
  | a :: l1, o, l2, h1, ho => by
      have ha : ¬ a.identifier = identifier := h1 a (List.mem_cons_self a l1)
      have ih := setObjectScan_match identifier p v s l1 o l2
        (fun o' h => h1 o' (List.mem_cons_of_mem a h)) ho
      simp [setObjectScan, ha, ih]

theorem setObjectScan_none (identifier : Nat) (p v s : AEVec2) :
    ∀ l : List NetworkObject, (∀ o' ∈ l, o'.identifier ≠ identifier) →
      setObjectScan identifier p v s l = none
  | [], _ => rfl
  | a :: l, h => by
      have ha : ¬ a.identifier = identifier := h a (List.mem_cons_self a l)
      have ih := setObjectScan_none identifier p v s l
        (fun o' h' => h o' (List.mem_cons_of_mem a h'))
      simp [setObjectScan, ha, ih]

theorem get_of_setObjectScan_some (identifier : Nat) (p v s : AEVec2) :
    ∀ (l l' : List NetworkObject), setObjectScan identifier p v s l = some l' →
      GetNetworkObject identifier l' = some (p, v, s)
  | [], _, h => by simp [setObjectScan] at h
  | a :: l, l', h => by
      by_cases ha : a.identifier = identifier
      · simp [setObjectScan, ha] at h
        subst h
        simp [GetNetworkObject, ha]
      · cases hs : setObjectScan identifier p v s l with
        | none => simp [setObjectScan, ha, hs] at h
        | some rest' =>
            simp [setObjectScan, ha, hs] at h
            subst h
            simpa [GetNetworkObject, ha] using
              get_of_setObjectScan_some identifier p v s l rest' hs

theorem get_none_of_setObjectScan_none (identifier : Nat) (p v s : AEVec2) :
    ∀ l : List NetworkObject, setObjectScan identifier p v s l = none →
      GetNetworkObject identifier l = none
  | [], _ => rfl
  | a :: l, h => by
      by_cases ha : a.identifier = identifier
      · simp [setObjectScan, ha] at h
      · cases hs : setObjectScan identifier p v s l with
        | none =>
            simpa [GetNetworkObject, ha] using
              get_none_of_setObjectScan_none identifier p v s l hs
        | some rest' => simp [setObjectScan, ha, hs] at h

theorem getNetworkObject_append (identifier : Nat)
    (l l2 : List NetworkObject) (h : GetNetworkObject identifier l = none) :
    GetNetworkObject identifier (l ++ l2) = GetNetworkObject identifier l2 := by
  induction l with
  | nil => rfl
  | cons a l ih =>
      by_cases ha : a.identifier = identifier
      · simp [GetNetworkObject, ha] at h
      · simp [GetNetworkObject, ha] at h ⊢
        exact ih h

/-- C3: `SetNetworkObject` has upsert semantics. When a live object with the
given identifier exists (first occurrence at the split point), its transform
is overwritten in place and the call succeeds, regardless of capacity. When
no live object matches and the count is below capacity, a fresh entry is
appended (incrementing the count, here the list length) and the call
succeeds. When no live object matches and the store is at capacity, the call
fails and the state is unchanged. -/
theorem setNetworkObject_upsert (maxObjects identifier : Nat)
    (position velocity scale : AEVec2) (objects l1 l2 : List NetworkObject)
    (o : NetworkObject) :
    (objects = l1 ++ o :: l2 → o.identifier = identifier →
      (∀ o' ∈ l1, o'.identifier ≠ identifier) →
      SetNetworkObject maxObjects identifier position velocity scale objects =
        (true, l1 ++
          { o with position := position, velocity := velocity, scale := scale } :: l2)) ∧
    ((∀ o' ∈ objects, o'.identifier ≠ identifier) → objects.length < maxObjects →
      SetNetworkObject maxObjects identifier position velocity scale objects =
        (true, objects ++
          [{ identifier := identifier, position := position,
             velocity := velocity, scale := scale }])) ∧
    ((∀ o' ∈ objects, o'.identifier ≠ identifier) → objects.length = maxObjects →
      SetNetworkObject maxObjects identifier position velocity scale objects =
        (false, objects)) := by
  refine ⟨fun hsplit ho h1 => ?_, fun habs hcap => ?_, fun habs hful => ?_⟩
  · subst hsplit
    simp [SetNetworkObject, setObjectScan_match identifier position velocity scale l1 o l2 h1 ho]
  · simp [SetNetworkObject, setObjectScan_none identifier position velocity scale objects habs, hcap]
  · have : ¬ objects.length < maxObjects := by omega
    simp [SetNetworkObject, setObjectScan_none identifier position velocity scale objects habs, this]

/-- C4: round-trip. Whenever `SetNetworkObject` succeeds, an immediate
`GetNetworkObject` with the same identifier on the resulting state succeeds
and returns exactly the position, velocity and scale just written. -/
theorem set_get_roundtrip (maxObjects identifier : Nat)
    (position velocity scale : AEVec2) (objects : List NetworkObject)
    (hok : (SetNetworkObject maxObjects identifier position velocity scale objects).1 = true) :
    GetNetworkObject identifier
        (SetNetworkObject maxObjects identifier position velocity scale objects).2 =
      some (position, velocity, scale) := by
  cases hs : setObjectScan identifier position velocity scale objects with
  | some objects' =>
      simp [SetNetworkObject, hs]
      exact get_of_setObjectScan_some identifier position velocity scale objects objects' hs
  | none =>
      by_cases hcap : objects.length < maxObjects
      · simp [SetNetworkObject, hs, hcap]
        rw [getNetworkObject_append identifier objects _
          (get_none_of_setObjectScan_none identifier position velocity scale objects hs)]
        simp [GetNetworkObject]
      · simp [SetNetworkObject, hs, hcap] at hok

/-- Closed witness for `set_get_roundtrip` at a concrete store. -/
theorem set_get_roundtrip_witness :
    GetNetworkObject 7
        (SetNetworkObject 2 7 ⟨1, 2⟩ ⟨3, 4⟩ ⟨5, 6⟩
          [{ identifier := 9, position := ⟨0, 0⟩, velocity := ⟨0, 0⟩, scale := ⟨0, 0⟩ }]).2 =
      some (⟨1, 2⟩, ⟨3, 4⟩, ⟨5, 6⟩) :=
  set_get_roundtrip 2 7 ⟨1, 2⟩ ⟨3, 4⟩ ⟨5, 6⟩
    [{ identifier := 9, position := ⟨0, 0⟩, velocity := ⟨0, 0⟩, scale := ⟨0, 0⟩ }]
    (by decide)

/-- Closed witness for `setNetworkObject_upsert`: the in-place update case
at a concrete store with the matching object in second position. -/
theorem setNetworkObject_upsert_witness :
    SetNetworkObject 2 7 ⟨1, 2⟩ ⟨3, 4⟩ ⟨5, 6⟩
        [{ identifier := 9, position := ⟨0, 0⟩, velocity := ⟨0, 0⟩, scale := ⟨0, 0⟩ },
         { identifier := 7, position := ⟨8, 8⟩, velocity := ⟨8, 8⟩, scale := ⟨8, 8⟩ }] =
      (true,
        [{ identifier := 9, position := ⟨0, 0⟩, velocity := ⟨0, 0⟩, scale := ⟨0, 0⟩ },
         { identifier := 7, position := ⟨1, 2⟩, velocity := ⟨3, 4⟩, scale := ⟨5, 6⟩ }]) :=
  (setNetworkObject_upsert 2 7 ⟨1, 2⟩ ⟨3, 4⟩ ⟨5, 6⟩
      [{ identifier := 9, position := ⟨0, 0⟩, velocity := ⟨0, 0⟩, scale := ⟨0, 0⟩ },
       { identifier := 7, position := ⟨8, 8⟩, velocity := ⟨8, 8⟩, scale := ⟨8, 8⟩ }]
      [{ identifier := 9, position := ⟨0, 0⟩, velocity := ⟨0, 0⟩, scale := ⟨0, 0⟩ }]
      [] { identifier := 7, position := ⟨8, 8⟩, velocity := ⟨8, 8⟩, scale := ⟨8, 8⟩ }).1
    rfl rfl (by decide)

/-! Helper lemmas about the leaderboard sort and the `AddScoreToLeaderboard`
branches. -/

theorem sortScores_sorted (l : List NetworkScore) : SortedDesc (sortScores l) :=
  List.sorted_insertionSort scoreGE l

theorem sortScores_perm (l : List NetworkScore) : (sortScores l).Perm l :=
  List.perm_insertionSort scoreGE l

theorem sortScores_length (l : List NetworkScore) :
    (sortScores l).length = l.length :=
  List.length_insertionSort scoreGE l

theorem sortLive_take_sorted (arr : List NetworkScore) (n : Nat)
    (hn : n ≤ arr.length) : SortedDesc ((sortLive arr n).take n) := by
  have h1 : (sortScores (arr.take n)).length = n := by
    rw [sortScores_length, List.length_take]
    omega
  rw [sortLive, List.take_left' h1]
  exact sortScores_sorted _

theorem mem_of_mem_sortLive {e : NetworkScore} {arr : List NetworkScore}
    {n : Nat} (h : e ∈ sortLive arr n) : e ∈ arr := by
  rcases List.mem_append.1 h with h | h
  · exact List.mem_of_mem_take ((List.mem_insertionSort scoreGE).1 h)
  · exact List.mem_of_mem_drop h

theorem getElem_mem_sortLive (arr : List NetworkScore) (k n : Nat)
    (hk : k < arr.length) (hkn : k < n) : arr[k] ∈ sortLive arr n := by
  have ht : k < (arr.take n).length := by
    rw [List.length_take]
    omega
  have he : (arr.take n)[k] = arr[k] := List.getElem_take arr
  refine List.mem_append.2 (Or.inl ?_)
  rw [sortScores, List.mem_insertionSort, ← he]
  exact List.getElem_mem ht

theorem addScore_eq_below (maxScores nameCap timeCap identifier score : Nat)
    (name timestamp : List Nat) (lb : NetworkLeaderboard)
    (hlt : lb.scoreCount < maxScores) :
    AddScoreToLeaderboard maxScores nameCap timeCap identifier name score timestamp lb =
      (true, { scoreCount := lb.scoreCount + 1,
               scores := sortLive
                 (lb.scores.set lb.scoreCount
                   (newEntry nameCap timeCap identifier score name timestamp
                     (lb.scores.getD lb.scoreCount default)))
                 (lb.scoreCount + 1) }) := by
  simp [AddScoreToLeaderboard, hlt]

theorem addScore_eq_replace (maxScores nameCap timeCap identifier score : Nat)
    (name timestamp : List Nat) (lb : NetworkLeaderboard)
    (hnlt : ¬ lb.scoreCount < maxScores)
    (hgt : (lb.scores.getD (maxScores - 1) default).score < score) :
    AddScoreToLeaderboard maxScores nameCap timeCap identifier name score timestamp lb =
      (true, { scoreCount := lb.scoreCount,
               scores := sortLive
                 (lb.scores.set (maxScores - 1)
                   (newEntry nameCap timeCap identifier score name timestamp
                     (lb.scores.getD (maxScores - 1) default)))
                 lb.scoreCount }) := by
  simp only [AddScoreToLeaderboard, if_neg hnlt, if_pos hgt]

theorem addScore_eq_reject (maxScores nameCap timeCap identifier score : Nat)
    (name timestamp : List Nat) (lb : NetworkLeaderboard)
    (hnlt : ¬ lb.scoreCount < maxScores)
    (hle : ¬ (lb.scores.getD (maxScores - 1) default).score < score) :
    AddScoreToLeaderboard maxScores nameCap timeCap identifier name score timestamp lb =
      (false, lb) := by
  simp only [AddScoreToLeaderboard, if_neg hnlt, if_neg hle]

/-- C2: sortedness is an invariant. Starting from any well-formed state
whose live slice is sorted non-increasing by score, every successful
`AddScoreToLeaderboard` leaves the live slice `scores[0..scoreCount)` again
sorted non-increasing by score. -/
theorem addScore_sorted_invariant (maxScores nameCap timeCap identifier score : Nat)
    (name timestamp : List Nat) (lb : NetworkLeaderboard)
    (hlen : lb.scores.length = maxScores) (hcnt : lb.scoreCount ≤ maxScores)
    (hsorted : SortedDesc (lb.scores.take lb.scoreCount))
    (hok : (AddScoreToLeaderboard maxScores nameCap timeCap identifier
      name score timestamp lb).1 = true) :
    SortedDesc
      ((AddScoreToLeaderboard maxScores nameCap timeCap identifier
          name score timestamp lb).2.scores.take
        (AddScoreToLeaderboard maxScores nameCap timeCap identifier
          name score timestamp lb).2.scoreCount) := by
  by_cases hlt : lb.scoreCount < maxScores
  · rw [addScore_eq_below maxScores nameCap timeCap identifier score name timestamp lb hlt]
    dsimp only
    exact sortLive_take_sorted _ _ (by rw [List.length_set]; omega)
  · by_cases hgt : (lb.scores.getD (maxScores - 1) default).score < score
    · rw [addScore_eq_replace maxScores nameCap timeCap identifier score name timestamp lb hlt hgt]
      dsimp only
      exact sortLive_take_sorted _ _ (by rw [List.length_set]; omega)
    · rw [addScore_eq_reject maxScores nameCap timeCap identifier score name timestamp lb hlt hgt] at hok
      simp at hok

/-- Closed witness for `addScore_sorted_invariant`: a two-slot leaderboard
with one live entry accepts a lower score and stays sorted. -/
theorem addScore_sorted_invariant_witness :
    SortedDesc
      ((AddScoreToLeaderboard 2 1 1 5 [65] 7 [66]
          { scoreCount := 1,
            scores := [{ identifier := 1, name := [67, 0], score := 9, timestamp := [68, 0] },
                       { identifier := 0, name := [0, 0], score := 0, timestamp := [0, 0] }] }).2.scores.take
        (AddScoreToLeaderboard 2 1 1 5 [65] 7 [66]
          { scoreCount := 1,
            scores := [{ identifier := 1, name := [67, 0], score := 9, timestamp := [68, 0] },
                       { identifier := 0, name := [0, 0], score := 0, timestamp := [0, 0] }] }).2.scoreCount) :=
  addScore_sorted_invariant 2 1 1 5 7 [65] [66]
    { scoreCount := 1,
      scores := [{ identifier := 1, name := [67, 0], score := 9, timestamp := [68, 0] },
                 { identifier := 0, name := [0, 0], score := 0, timestamp := [0, 0] }] }
    (by decide) (by decide) (by decide) (by decide)

/-- C1: admission policy at full capacity. With `scoreCount = maxScores`, a
new score at most the score of the last live slot (the current minimum of a
sorted table) is rejected with the leaderboard unchanged byte for byte; a
strictly greater score succeeds, keeps the count, overwrites exactly the
last slot's fields (identifier/score assigned, name/timestamp copied with
truncation over that slot's buffers), and re-sorts the live slice —
the result is a permutation of the array with only that slot replaced, and
it is sorted descending by score. -/
theorem addScore_full_capacity (maxScores nameCap timeCap identifier score : Nat)
    (name timestamp : List Nat) (lb : NetworkLeaderboard)
    (hpos : 0 < maxScores) (hlen : lb.scores.length = maxScores)
    (hfull : lb.scoreCount = maxScores) :
    (score ≤ (lb.scores.getD (maxScores - 1) default).score →
      AddScoreToLeaderboard maxScores nameCap timeCap identifier name score timestamp lb =
        (false, lb)) ∧
    ((lb.scores.getD (maxScores - 1) default).score < score →
      (AddScoreToLeaderboard maxScores nameCap timeCap identifier
          name score timestamp lb).1 = true ∧
      (AddScoreToLeaderboard maxScores nameCap timeCap identifier
          name score timestamp lb).2.scoreCount = lb.scoreCount ∧
      ((AddScoreToLeaderboard maxScores nameCap timeCap identifier
          name score timestamp lb).2.scores).Perm
        (lb.scores.set (maxScores - 1)
          (newEntry nameCap timeCap identifier score name timestamp
            (lb.scores.getD (maxScores - 1) default))) ∧
      SortedDesc (AddScoreToLeaderboard maxScores nameCap timeCap identifier
          name score timestamp lb).2.scores) := by
  have hnlt : ¬ lb.scoreCount < maxScores := by omega
  constructor
  · intro hle
    exact addScore_eq_reject maxScores nameCap timeCap identifier score name timestamp lb
      hnlt (by omega)
  · intro hgt
    rw [addScore_eq_replace maxScores nameCap timeCap identifier score name timestamp lb
      hnlt hgt]
    dsimp only
    have harr : (lb.scores.set (maxScores - 1)
        (newEntry nameCap timeCap identifier score name timestamp
          (lb.scores.getD (maxScores - 1) default))).length = lb.scoreCount := by
      rw [List.length_set, hlen, hfull]
    have htake := List.take_length (lb.scores.set (maxScores - 1)
      (newEntry nameCap timeCap identifier score name timestamp
        (lb.scores.getD (maxScores - 1) default)))
    have hdrop := List.drop_length (lb.scores.set (maxScores - 1)
      (newEntry nameCap timeCap identifier score name timestamp
        (lb.scores.getD (maxScores - 1) default)))
    rw [harr] at htake hdrop
    refine ⟨rfl, rfl, ?_, ?_⟩
    · rw [sortLive, htake, hdrop, List.append_nil]
      exact sortScores_perm _
    · rw [sortLive, htake, hdrop, List.append_nil]
      exact sortScores_sorted _

/-- Closed witness for `addScore_full_capacity`: a full two-slot table with
minimum 80 rejects a new score of 70 and is left unchanged. -/
theorem addScore_full_capacity_witness :
    AddScoreToLeaderboard 2 1 1 9 [88] 70 [89]
        { scoreCount := 2,
          scores := [{ identifier := 1, name := [67, 0], score := 100, timestamp := [68, 0] },
                     { identifier := 2, name := [69, 0], score := 80, timestamp := [70, 0] }] } =
      (false,
        { scoreCount := 2,
          scores := [{ identifier := 1, name := [67, 0], score := 100, timestamp := [68, 0] },
                     { identifier := 2, name := [69, 0], score := 80, timestamp := [70, 0] }] }) :=
  (addScore_full_capacity 2 1 1 9 70 [88] [89]
      { scoreCount := 2,
        scores := [{ identifier := 1, name := [67, 0], score := 100, timestamp := [68, 0] },
                   { identifier := 2, name := [69, 0], score := 80, timestamp := [70, 0] }] }
      (by decide) (by decide) (by decide)).1 (by decide)

/-! Helper lemmas about the truncating copy. -/

theorem strncpyS_length (cap : Nat) (old src : List Nat) (h : old.length = cap + 1) :
    (strncpyS cap old src).length = cap + 1 := by
  simp [strncpyS, List.length_take, List.length_drop]
  omega

theorem strncpyS_take (cap : Nat) (old src : List Nat) :
    (strncpyS cap old src).take (min src.length cap + 1) = src.take cap ++ [0] := by
  have h1 : min src.length cap + 1 = (src.take cap).length + 1 := by
    rw [List.length_take]
    omega
  rw [strncpyS, h1, List.take_append]
  simp

theorem addScore_aux_buffers (nameCap timeCap identifier score : Nat)
    (name timestamp : List Nat) (scores : List NetworkScore) (k n : Nat)
    (hk : k < scores.length)
    (hbuf : ∀ e ∈ scores, e.name.length = nameCap + 1 ∧ e.timestamp.length = timeCap + 1) :
    ∀ e ∈ sortLive
        (scores.set k (newEntry nameCap timeCap identifier score name timestamp
          (scores.getD k default))) n,
      e.name.length = nameCap + 1 ∧ e.timestamp.length = timeCap + 1 := by
  intro e he
  rcases List.mem_or_eq_of_mem_set (mem_of_mem_sortLive he) with h | h
  · exact hbuf e h
  · subst h
    have hold : scores.getD k default ∈ scores := by
      rw [List.getD_eq_getElem scores default hk]
      exact List.getElem_mem hk
    obtain ⟨h1, h2⟩ := hbuf _ hold
    exact ⟨strncpyS_length nameCap _ name h1, strncpyS_length timeCap _ timestamp h2⟩

theorem addScore_aux_newEntry_mem (nameCap timeCap identifier score : Nat)
    (name timestamp : List Nat) (scores : List NetworkScore) (k n : Nat)
    (hk : k < scores.length) (hkn : k < n) :
    newEntry nameCap timeCap identifier score name timestamp (scores.getD k default) ∈
      sortLive
        (scores.set k (newEntry nameCap timeCap identifier score name timestamp
          (scores.getD k default))) n := by
  have hk' : k < (scores.set k (newEntry nameCap timeCap identifier score name timestamp
      (scores.getD k default))).length := by
    rw [List.length_set]
    exact hk
  have hm := getElem_mem_sortLive (scores.set k (newEntry nameCap timeCap identifier score
    name timestamp (scores.getD k default))) k n hk' hkn
  rwa [List.getElem_set_self hk'] at hm

/-- C6: buffer safety of `AddScoreToLeaderboard` for input strings of any
length. All stored name/timestamp buffers keep their fixed sizes
(`nameCap + 1` and `timeCap + 1` bytes — nothing is written past them), and
on success the freshly written entry holds the input name truncated to at
most `nameCap` characters followed by a null terminator (likewise the
timestamp with `timeCap`). The operation is a total function: no input
string causes a crash. -/
theorem addScore_truncation_safety (maxScores nameCap timeCap identifier score : Nat)
    (name timestamp : List Nat) (lb : NetworkLeaderboard)
    (hpos : 0 < maxScores) (hlen : lb.scores.length = maxScores)
    (hcnt : lb.scoreCount ≤ maxScores)
    (hbuf : ∀ e ∈ lb.scores, e.name.length = nameCap + 1 ∧ e.timestamp.length = timeCap + 1) :
    (∀ e ∈ (AddScoreToLeaderboard maxScores nameCap timeCap identifier
        name score timestamp lb).2.scores,
      e.name.length = nameCap + 1 ∧ e.timestamp.length = timeCap + 1) ∧
    ((AddScoreToLeaderboard maxScores nameCap timeCap identifier
        name score timestamp lb).1 = true →
      ∃ e ∈ (AddScoreToLeaderboard maxScores nameCap timeCap identifier
          name score timestamp lb).2.scores,
        e.identifier = identifier ∧ e.score = score ∧
        e.name.take (min name.length nameCap + 1) = name.take nameCap ++ [0] ∧
        e.timestamp.take (min timestamp.length timeCap + 1) =
          timestamp.take timeCap ++ [0]) := by
  by_cases hlt : lb.scoreCount < maxScores
  · rw [addScore_eq_below maxScores nameCap timeCap identifier score name timestamp lb hlt]
    dsimp only
    constructor
    · exact addScore_aux_buffers nameCap timeCap identifier score name timestamp lb.scores
        lb.scoreCount (lb.scoreCount + 1) (by omega) hbuf
    · intro _
      exact ⟨newEntry nameCap timeCap identifier score name timestamp
          (lb.scores.getD lb.scoreCount default),
        addScore_aux_newEntry_mem nameCap timeCap identifier score name timestamp lb.scores
          lb.scoreCount (lb.scoreCount + 1) (by omega) (by omega),
        rfl, rfl, strncpyS_take nameCap _ name, strncpyS_take timeCap _ timestamp⟩
  · by_cases hgt : (lb.scores.getD (maxScores - 1) default).score < score
    · rw [addScore_eq_replace maxScores nameCap timeCap identifier score name timestamp lb
        hlt hgt]
      dsimp only
      constructor
      · exact addScore_aux_buffers nameCap timeCap identifier score name timestamp lb.scores
          (maxScores - 1) lb.scoreCount (by omega) hbuf
      · intro _
        exact ⟨newEntry nameCap timeCap identifier score name timestamp
            (lb.scores.getD (maxScores - 1) default),
          addScore_aux_newEntry_mem nameCap timeCap identifier score name timestamp lb.scores
            (maxScores - 1) lb.scoreCount (by omega) (by omega),
          rfl, rfl, strncpyS_take nameCap _ name, strncpyS_take timeCap _ timestamp⟩
    · rw [addScore_eq_reject maxScores nameCap timeCap identifier score name timestamp lb
        hlt hgt]
      dsimp only
      refine ⟨hbuf, fun hok => ?_⟩
      simp at hok

/-- Closed witness for `addScore_truncation_safety`: a three-character name
written through a one-character name field is truncated and terminated. -/
theorem addScore_truncation_safety_witness :
    (∀ e ∈ (AddScoreToLeaderboard 1 1 1 5 [72, 73, 74] 42 [75]
        { scoreCount := 0,
          scores := [{ identifier := 0, name := [0, 0], score := 0,
                       timestamp := [0, 0] }] }).2.scores,
      e.name.length = 1 + 1 ∧ e.timestamp.length = 1 + 1) ∧
    ((AddScoreToLeaderboard 1 1 1 5 [72, 73, 74] 42 [75]
        { scoreCount := 0,
          scores := [{ identifier := 0, name := [0, 0], score := 0,
                       timestamp := [0, 0] }] }).1 = true →
      ∃ e ∈ (AddScoreToLeaderboard 1 1 1 5 [72, 73, 74] 42 [75]
          { scoreCount := 0,
            scores := [{ identifier := 0, name := [0, 0], score := 0,
                         timestamp := [0, 0] }] }).2.scores,
        e.identifier = 5 ∧ e.score = 42 ∧
        e.name.take (min (List.length [72, 73, 74]) 1 + 1) =
          List.take 1 [72, 73, 74] ++ [0] ∧
        e.timestamp.take (min (List.length [75]) 1 + 1) = List.take 1 [75] ++ [0]) :=
  addScore_truncation_safety 1 1 1 5 42 [72, 73, 74] [75]
    { scoreCount := 0,
      scores := [{ identifier := 0, name := [0, 0], score := 0, timestamp := [0, 0] }] }
    (by decide) (by decide) (by decide) (by decide)

/-! Helper lemmas about the top-N loop. -/

theorem topLoop_length (lb : NetworkLeaderboard) :
    ∀ (fuel x count : Nat), count - x = fuel →
      (topLoop lb count x).length = count - x
  | 0, x, count, h => by
      have hx : ¬ x < count := by omega
      rw [topLoop, if_neg hx]
      simp
      omega
  | fuel + 1, x, count, h => by
      have hx : x < count := by omega
      rw [topLoop, if_pos hx]
      have ih := topLoop_length lb fuel (x + 1) count (by omega)
      simp [ih]
      omega

theorem topLoop_getD (lb : NetworkLeaderboard) :
    ∀ (fuel x count : Nat), count - x = fuel → ∀ j, j < count - x →
      (topLoop lb count x).getD j [] =
        formatEntry (x + j + 1) (lb.scores.getD (x + j) default)
  | 0, _, _, h, j, hj => by omega
  | fuel + 1, x, count, h, j, hj => by
      have hx : x < count := by omega
      rw [topLoop, if_pos hx]
      cases j with
      | zero => simp
      | succ j =>
          have ih := topLoop_getD lb fuel (x + 1) count (by omega) j (by omega)
          have e1 : x + 1 + j = x + (j + 1) := by omega
          rw [e1] at ih
          simpa using ih

/-- C8: the top-N query returns exactly `min n scoreCount` strings, in
stored (descending) order, the string at 0-based index `x` being the
rendering `<rank>) <name>: <score> [<timestamp>]` of the stored entry at
rank `x + 1`. The query is a pure read: it does not mutate the
leaderboard. -/
theorem getTopPlayers_spec (n : Nat) (lb : NetworkLeaderboard)
    (hcnt : lb.scoreCount ≤ lb.scores.length) :
    (GetTopPlayersFromLeaderboard n lb).length = min n lb.scoreCount ∧
    ∀ x, x < min n lb.scoreCount →
      (GetTopPlayersFromLeaderboard n lb).getD x [] =
        formatEntry (x + 1) (lb.scores.getD x default) := by
  have hc : (if n < lb.scoreCount then n else lb.scoreCount) = min n lb.scoreCount := by
    split <;> omega
  simp only [GetTopPlayersFromLeaderboard, hc]
  constructor
  · rw [topLoop_length lb (min n lb.scoreCount) 0 (min n lb.scoreCount) (by omega)]
    omega
  · intro x hx
    have := topLoop_getD lb (min n lb.scoreCount) 0 (min n lb.scoreCount) (by omega) x
      (by omega)
    simpa using this

/-- Closed witness for `getTopPlayers_spec`: asking for two entries of a
one-entry leaderboard yields exactly one formatted line. -/
theorem getTopPlayers_spec_witness :
    (GetTopPlayersFromLeaderboard 2
        { scoreCount := 1,
          scores := [{ identifier := 3, name := [65, 0], score := 50,
                       timestamp := [66, 0] }] }).length = min 2 1 ∧
    (GetTopPlayersFromLeaderboard 2
        { scoreCount := 1,
          scores := [{ identifier := 3, name := [65, 0], score := 50,
                       timestamp := [66, 0] }] }).getD 0 [] =
      formatEntry 1
        (({ scoreCount := 1,
            scores := [{ identifier := 3, name := [65, 0], score := 50,
                         timestamp := [66, 0] }] } : NetworkLeaderboard).scores.getD 0 default) :=
  ⟨(getTopPlayers_spec 2
      { scoreCount := 1,
        scores := [{ identifier := 3, name := [65, 0], score := 50,
                     timestamp := [66, 0] }] } (by decide)).1,
   (getTopPlayers_spec 2
      { scoreCount := 1,
        scores := [{ identifier := 3, name := [65, 0], score := 50,
                     timestamp := [66, 0] }] } (by decide)).2 0 (by decide)⟩

/-! Helper lemmas about the binary persistence format. -/

theorem decodeU32_encodeU32 (n : Nat) (h : n < 4294967296) :
    decodeU32 (encodeU32 n) = n := by
  simp [decodeU32, encodeU32]
  omega

theorem encodeU32_length (n : Nat) : (encodeU32 n).length = 4 := by
  simp [encodeU32]

theorem encodeEntry_length (nameCap timeCap : Nat) (e : NetworkScore)
    (h1 : e.name.length = nameCap + 1) (h2 : e.timestamp.length = timeCap + 1) :
    (encodeEntry e).length = entrySize nameCap timeCap := by
  simp [encodeEntry, encodeU32, entrySize, h1, h2]
  omega

theorem decodeEntry_encodeEntry (nameCap timeCap : Nat) (e : NetworkScore)
    (h : WFScore nameCap timeCap e) :
    decodeEntry nameCap timeCap (encodeEntry e) = e := by
  obtain ⟨hid, hsc, hname, hts⟩ := h
  have l1 : (encodeU32 e.identifier).length = 4 := encodeU32_length _
  have l2 : (encodeU32 e.score).length = 4 := encodeU32_length _
  have hassoc : encodeEntry e =
      encodeU32 e.identifier ++ (e.name ++ (encodeU32 e.score ++ e.timestamp)) := by
    simp [encodeEntry, List.append_assoc]
  have e1 : (encodeEntry e).take 4 = encodeU32 e.identifier := by
    rw [hassoc, List.take_left' l1]
  have e2 : (encodeEntry e).drop 4 = e.name ++ (encodeU32 e.score ++ e.timestamp) := by
    rw [hassoc, List.drop_left' l1]
  have e3 : ((encodeEntry e).drop 4).take (nameCap + 1) = e.name := by
    rw [e2, List.take_left' hname]
  have e4 : (encodeEntry e).drop (4 + (nameCap + 1)) =
      encodeU32 e.score ++ e.timestamp := by
    have hass2 : encodeEntry e =
        (encodeU32 e.identifier ++ e.name) ++ (encodeU32 e.score ++ e.timestamp) := by
      simp [encodeEntry, List.append_assoc]
    rw [hass2]
    exact List.drop_left' (by rw [List.length_append, l1, hname])
  have e5 : ((encodeEntry e).drop (4 + (nameCap + 1))).take 4 = encodeU32 e.score := by
    rw [e4, List.take_left' l2]
  have e6 : (encodeEntry e).drop (4 + (nameCap + 1) + 4) = e.timestamp := by
    have hass3 : encodeEntry e =
        ((encodeU32 e.identifier ++ e.name) ++ encodeU32 e.score) ++ e.timestamp := rfl
    rw [hass3]
    exact List.drop_left' (by rw [List.length_append, List.length_append, l1, l2, hname])
  have e7 : ((encodeEntry e).drop (4 + (nameCap + 1) + 4)).take (timeCap + 1) =
      e.timestamp := by
    rw [e6, ← hts, List.take_length]
  show ({ identifier := decodeU32 ((encodeEntry e).take 4)
          name := ((encodeEntry e).drop 4).take (nameCap + 1)
          score := decodeU32 (((encodeEntry e).drop (4 + (nameCap + 1))).take 4)
          timestamp := ((encodeEntry e).drop (4 + (nameCap + 1) + 4)).take (timeCap + 1) } :
        NetworkScore) = e
  rw [e1, e3, e5, e7, decodeU32_encodeU32 _ hid, decodeU32_encodeU32 _ hsc]

theorem flatten_length_const (es : Nat) :
    ∀ ls : List (List Nat), (∀ l ∈ ls, l.length = es) →
      ls.flatten.length = ls.length * es
  | [], _ => by simp
  | l :: ls, h => by
      have h1 := h l (List.mem_cons_self l ls)
      have ih := flatten_length_const es ls (fun l' hl' => h l' (List.mem_cons_of_mem l hl'))
      show (l ++ ls.flatten).length = (ls.length + 1) * es
      rw [List.length_append, h1, ih]
      ring

theorem flatten_drop_take (es : Nat) :
    ∀ (ls : List (List Nat)) (i : Nat), (∀ l ∈ ls, l.length = es) → i < ls.length →
      (ls.flatten.drop (i * es)).take es = ls.getD i []
  | [], i, _, hi => by simp at hi
  | l :: ls, 0, h, _ => by
      show ((l ++ ls.flatten).drop (0 * es)).take es = l
      rw [Nat.zero_mul, List.drop_zero, List.take_left' (h l (List.mem_cons_self l ls))]
  | l :: ls, i + 1, h, hi => by
      have h1 := h l (List.mem_cons_self l ls)
      have hmul : (i + 1) * es = l.length + i * es := by
        rw [h1]
        ring
      show ((l ++ ls.flatten).drop ((i + 1) * es)).take es = (l :: ls).getD (i + 1) []
      rw [hmul, List.drop_append, List.getD_cons_succ]
      exact flatten_drop_take es ls i (fun l' hl' => h l' (List.mem_cons_of_mem l hl'))
        (by simpa using hi)

theorem encodeLeaderboard_length (maxScores nameCap timeCap : Nat)
    (lb : NetworkLeaderboard) (hWF : WFLeaderboard maxScores nameCap timeCap lb) :
    (encodeLeaderboard lb).length = sizeofLeaderboard maxScores nameCap timeCap := by
  obtain ⟨-, hlen, hent⟩ := hWF
  have hmaplen : ∀ l ∈ lb.scores.map encodeEntry, l.length = entrySize nameCap timeCap := by
    intro l hl
    obtain ⟨e, he, rfl⟩ := List.mem_map.1 hl
    obtain ⟨-, -, h1, h2⟩ := hent e he
    exact encodeEntry_length nameCap timeCap e h1 h2
  rw [encodeLeaderboard, sizeofLeaderboard, List.length_append, encodeU32_length,
    flatten_length_const (entrySize nameCap timeCap) _ hmaplen, List.length_map, hlen]

theorem decodeLeaderboard_encodeLeaderboard (maxScores nameCap timeCap : Nat)
    (lb : NetworkLeaderboard) (hWF : WFLeaderboard maxScores nameCap timeCap lb) :
    decodeLeaderboard maxScores nameCap timeCap (encodeLeaderboard lb) = lb := by
  obtain ⟨hc, hlen, hent⟩ := hWF
  have l4 : (encodeU32 lb.scoreCount).length = 4 := encodeU32_length _
  have hmaplen : ∀ l ∈ lb.scores.map encodeEntry, l.length = entrySize nameCap timeCap := by
    intro l hl
    obtain ⟨e, he, rfl⟩ := List.mem_map.1 hl
    obtain ⟨-, -, h1, h2⟩ := hent e he
    exact encodeEntry_length nameCap timeCap e h1 h2
  have hcount : (decodeLeaderboard maxScores nameCap timeCap
      (encodeLeaderboard lb)).scoreCount = lb.scoreCount := by
    show decodeU32 ((encodeLeaderboard lb).take 4) = lb.scoreCount
    rw [encodeLeaderboard, List.take_left' l4, decodeU32_encodeU32 _ hc]
  have hscores : (decodeLeaderboard maxScores nameCap timeCap
      (encodeLeaderboard lb)).scores = lb.scores := by
    apply List.ext_getElem
    · simp [decodeLeaderboard, hlen]
    · intro i h1 h2
      show ((List.range maxScores).map fun i =>
        decodeEntry nameCap timeCap
          (((encodeLeaderboard lb).drop (4 + i * entrySize nameCap timeCap)).take
            (entrySize nameCap timeCap)))[i] = lb.scores[i]
      rw [List.getElem_map, List.getElem_range]
      have himax : i < maxScores := by
        simpa [decodeLeaderboard] using h1
      have hiscores : i < lb.scores.length := by omega
      have himap : i < (lb.scores.map encodeEntry).length := by
        rw [List.length_map]
        exact hiscores
      have hd : (encodeLeaderboard lb).drop (4 + i * entrySize nameCap timeCap) =
          (lb.scores.map encodeEntry).flatten.drop (i * entrySize nameCap timeCap) := by
        rw [encodeLeaderboard, ← l4, List.drop_append]
      rw [hd, flatten_drop_take (entrySize nameCap timeCap) _ i hmaplen himap,
        List.getD_eq_getElem _ _ himap, List.getElem_map]
      exact decodeEntry_encodeEntry nameCap timeCap _ (hent _ (List.getElem_mem hiscores))
  refine Eq.trans ?_ (rfl : (⟨lb.scoreCount, lb.scores⟩ : NetworkLeaderboard) = lb)
  rw [← hcount, ← hscores]

theorem loadLeaderboard_full_read (maxScores nameCap timeCap : Nat) (bytes : List Nat)
    (lb : NetworkLeaderboard) (hWF : WFLeaderboard maxScores nameCap timeCap lb)
    (hlong : sizeofLeaderboard maxScores nameCap timeCap ≤ bytes.length) :
    LoadLeaderboard maxScores nameCap timeCap (some bytes) lb =
      decodeLeaderboard maxScores nameCap timeCap
        (bytes.take (sizeofLeaderboard maxScores nameCap timeCap)) := by
  simp only [LoadLeaderboard]
  have hgot : (bytes.take (sizeofLeaderboard maxScores nameCap timeCap)).length =
      sizeofLeaderboard maxScores nameCap timeCap := by
    rw [List.length_take]
    omega
  rw [hgot]
  have hdrop : (encodeLeaderboard lb).drop (sizeofLeaderboard maxScores nameCap timeCap)
      = [] := by
    rw [← encodeLeaderboard_length maxScores nameCap timeCap lb hWF]
    exact List.drop_length _
  rw [hdrop, List.append_nil]

/-- C7: persistence round-trip. For every well-formed leaderboard, saving to
a file and loading that same unmodified file back reproduces the identical
in-memory leaderboard — same `scoreCount` and same entries (identifier,
name, score, timestamp) in the same order — because the whole fixed-size
aggregate is written and re-read bit-exactly as one contiguous blob. -/
theorem save_load_roundtrip (maxScores nameCap timeCap : Nat) (lb : NetworkLeaderboard)
    (hWF : WFLeaderboard maxScores nameCap timeCap lb) :
    LoadLeaderboard maxScores nameCap timeCap (some (SaveLeaderboard lb)) lb = lb := by
  have hlen := encodeLeaderboard_length maxScores nameCap timeCap lb hWF
  rw [show SaveLeaderboard lb = encodeLeaderboard lb from rfl]
  rw [loadLeaderboard_full_read maxScores nameCap timeCap _ lb hWF (by omega)]
  rw [show (encodeLeaderboard lb).take (sizeofLeaderboard maxScores nameCap timeCap) =
      encodeLeaderboard lb from by rw [← hlen]; exact List.take_length _]
  exact decodeLeaderboard_encodeLeaderboard maxScores nameCap timeCap lb hWF

/-- Closed witness for `save_load_roundtrip` on a concrete one-slot
leaderboard. -/
theorem save_load_roundtrip_witness :
    LoadLeaderboard 1 1 1
        (some (SaveLeaderboard
          { scoreCount := 1,
            scores := [{ identifier := 7, name := [65, 0], score := 9,
                         timestamp := [66, 0] }] }))
        { scoreCount := 1,
          scores := [{ identifier := 7, name := [65, 0], score := 9,
                       timestamp := [66, 0] }] } =
      { scoreCount := 1,
        scores := [{ identifier := 7, name := [65, 0], score := 9,
                     timestamp := [66, 0] }] } :=
  save_load_roundtrip 1 1 1
    { scoreCount := 1,
      scores := [{ identifier := 7, name := [65, 0], score := 9, timestamp := [66, 0] }] }
    (by decide)

/-- Counterexample to C5 as stated: a successfully opened file SHORTER than
`sizeof(NetworkLeaderboard)` is read partially — `istream::read` stores the
bytes it could get before setting the failure bit. On a one-slot leaderboard
(`sizeofLeaderboard 1 0 0 = 14` bytes) a one-byte file overwrites only the
first byte of `scoreCount`: the result is neither the untouched previous
state nor a full replacement — the count comes from the file while every
entry byte keeps its previous in-memory value. -/
theorem loadLeaderboard_short_read_not_noop :
    ([5] : List Nat).length < sizeofLeaderboard 1 0 0 ∧
    LoadLeaderboard 1 0 0 (some [5])
        { scoreCount := 1,
          scores := [{ identifier := 2, name := [0], score := 9, timestamp := [0] }] } ≠
      { scoreCount := 1,
        scores := [{ identifier := 2, name := [0], score := 9, timestamp := [0] }] } ∧
    (LoadLeaderboard 1 0 0 (some [5])
        { scoreCount := 1,
          scores := [{ identifier := 2, name := [0], score := 9,
                       timestamp := [0] }] }).scoreCount = 5 ∧
    (LoadLeaderboard 1 0 0 (some [5])
        { scoreCount := 1,
          scores := [{ identifier := 2, name := [0], score := 9,
                       timestamp := [0] }] }).scores =
      [{ identifier := 2, name := [0], score := 9, timestamp := [0] }] := by
  decide

/-- C5 amended: `LoadLeaderboard` is a silent no-op on open failure, leaving
the previous in-memory leaderboard untouched; and a successful read of a
file holding at least `sizeof(NetworkLeaderboard)` bytes fully replaces the
in-memory leaderboard with the decoded file contents (the result does not
depend on the previous state). A successfully opened file shorter than
`sizeof(NetworkLeaderboard)`, however, partially overwrites the in-memory
state (see the counterexample). -/
theorem loadLeaderboard_atomicity_amended (maxScores nameCap timeCap : Nat)
    (bytes : List Nat) (lb : NetworkLeaderboard)
    (hWF : WFLeaderboard maxScores nameCap timeCap lb) :
    LoadLeaderboard maxScores nameCap timeCap none lb = lb ∧
    (sizeofLeaderboard maxScores nameCap timeCap ≤ bytes.length →
      LoadLeaderboard maxScores nameCap timeCap (some bytes) lb =
        decodeLeaderboard maxScores nameCap timeCap
          (bytes.take (sizeofLeaderboard maxScores nameCap timeCap))) :=
  ⟨rfl, fun h => loadLeaderboard_full_read maxScores nameCap timeCap bytes lb hWF h⟩

/-- Closed witness for `loadLeaderboard_atomicity_amended` on a concrete
one-slot leaderboard and a 14-byte all-zero file. -/
theorem loadLeaderboard_atomicity_amended_witness :
    LoadLeaderboard 1 0 0 none
        { scoreCount := 1,
          scores := [{ identifier := 2, name := [0], score := 9, timestamp := [0] }] } =
      { scoreCount := 1,
        scores := [{ identifier := 2, name := [0], score := 9, timestamp := [0] }] } ∧
    (sizeofLeaderboard 1 0 0 ≤ (List.replicate 14 0).length →
      LoadLeaderboard 1 0 0 (some (List.replicate 14 0))
          { scoreCount := 1,
            scores := [{ identifier := 2, name := [0], score := 9, timestamp := [0] }] } =
        decodeLeaderboard 1 0 0 ((List.replicate 14 0).take (sizeofLeaderboard 1 0 0))) :=
  loadLeaderboard_atomicity_amended 1 0 0 (List.replicate 14 0)
    { scoreCount := 1,
      scores := [{ identifier := 2, name := [0], score := 9, timestamp := [0] }] }
    (by decide)

/-- C10: `LoadLeaderboard` validates nothing. After a full-size read the
in-memory `scoreCount` is exactly the 32-bit value in the file's first four
bytes, with no clamp against `maxScores`, and the entries are exactly the
decoded file bytes, with no re-sort — so a crafted file can set
`scoreCount > maxScores` and unsorted entries (see the witness). -/
theorem loadLeaderboard_no_validation (maxScores nameCap timeCap : Nat) (bytes : List Nat)
    (lb : NetworkLeaderboard) (hWF : WFLeaderboard maxScores nameCap timeCap lb)
    (hlong : sizeofLeaderboard maxScores nameCap timeCap ≤ bytes.length) :
    (LoadLeaderboard maxScores nameCap timeCap (some bytes) lb).scoreCount =
      decodeU32 (bytes.take 4) ∧
    (LoadLeaderboard maxScores nameCap timeCap (some bytes) lb).scores =
      (decodeLeaderboard maxScores nameCap timeCap
        (bytes.take (sizeofLeaderboard maxScores nameCap timeCap))).scores := by
  rw [loadLeaderboard_full_read maxScores nameCap timeCap bytes lb hWF hlong]
  refine ⟨?_, rfl⟩
  show decodeU32 ((bytes.take (sizeofLeaderboard maxScores nameCap timeCap)).take 4) =
    decodeU32 (bytes.take 4)
  rw [List.take_take]
  congr 1
  have h4 : (4 : Nat) ⊓ sizeofLeaderboard maxScores nameCap timeCap = 4 := by
    have : 4 ≤ sizeofLeaderboard maxScores nameCap timeCap := by
      rw [sizeofLeaderboard]
      omega
    omega
  rw [h4]

/-- Closed witness for `loadLeaderboard_no_validation`: a crafted file for a
two-slot leaderboard carrying count 3 and entries with ascending scores
leaves `scoreCount = 3 > 2` and an unsorted live slice after loading. -/
theorem loadLeaderboard_no_validation_witness :
    ((LoadLeaderboard 2 0 0
        (some (encodeLeaderboard
          { scoreCount := 3,
            scores := [{ identifier := 1, name := [0], score := 1, timestamp := [0] },
                       { identifier := 2, name := [0], score := 5, timestamp := [0] }] }))
        { scoreCount := 0,
          scores := [{ identifier := 0, name := [0], score := 0, timestamp := [0] },
                     { identifier := 0, name := [0], score := 0,
                       timestamp := [0] }] }).scoreCount =
      decodeU32 ((encodeLeaderboard
        { scoreCount := 3,
          scores := [{ identifier := 1, name := [0], score := 1, timestamp := [0] },
                     { identifier := 2, name := [0], score := 5,
                       timestamp := [0] }] }).take 4)) ∧
    decodeU32 ((encodeLeaderboard
        { scoreCount := 3,
          scores := [{ identifier := 1, name := [0], score := 1, timestamp := [0] },
                     { identifier := 2, name := [0], score := 5,
                       timestamp := [0] }] }).take 4) = 3 ∧
    ¬ SortedDesc ((LoadLeaderboard 2 0 0
        (some (encodeLeaderboard
          { scoreCount := 3,
            scores := [{ identifier := 1, name := [0], score := 1, timestamp := [0] },
                       { identifier := 2, name := [0], score := 5, timestamp := [0] }] }))
        { scoreCount := 0,
          scores := [{ identifier := 0, name := [0], score := 0, timestamp := [0] },
                     { identifier := 0, name := [0], score := 0,
                       timestamp := [0] }] }).scores) :=
  ⟨(loadLeaderboard_no_validation 2 0 0
      (encodeLeaderboard
        { scoreCount := 3,
          scores := [{ identifier := 1, name := [0], score := 1, timestamp := [0] },
                     { identifier := 2, name := [0], score := 5, timestamp := [0] }] })
      { scoreCount := 0,
        scores := [{ identifier := 0, name := [0], score := 0, timestamp := [0] },
                   { identifier := 0, name := [0], score := 0, timestamp := [0] }] }
      (by decide) (by decide)).1,
   by decide, by decide⟩


